import Mathlib

/-!
Verification development for the poltrends analytics engine.

The Python core is shallowly embedded: Python ints become `ℤ`/`ℕ`, float
arithmetic on the small decimal quantities of this program is modelled
exactly over `ℚ`, Python dicts become association lists (with last-write-wins
lookup where the program builds a dict by repeated assignment), and code
paths that raise an uncaught Python exception return `Except.error`.
`round` is Python 3 round-half-to-even, modelled exactly on `ℚ`.
-/

namespace Poltrends

/-! ## Numeric helpers -/

/-- Python 3 `round(x)`: round to nearest integer, ties to even.
`Int.fdiv x.num x.den` is the floor of `x` (the denominator is positive). -/
def pyRoundInt (x : ℚ) : ℤ :=
  let f := Int.fdiv x.num x.den
  let r := x.num - f * x.den
  if 2 * r < x.den then f
  else if (x.den : ℤ) < 2 * r then f + 1
  else if f % 2 = 0 then f else f + 1

/-- Python 3 `round(x, d)` on an exact rational. -/
def roundTo (d : ℕ) (x : ℚ) : ℚ := (pyRoundInt (x * 10 ^ d) : ℚ) / 10 ^ d

/-! ## String and dict helpers -/

/-- Lowercasing used by `classify_query` (`query.lower()`); the keyword
lexicons are pure ASCII so ASCII lowercasing is what matters. -/
def strLower (s : String) : String := String.mk (s.data.map Char.toLower)

/-- Contiguous-substring test on char lists. -/
def listContains : List Char → List Char → Bool
  | [], needle => needle.isEmpty
  | c :: rest, needle => needle.isPrefixOf (c :: rest) || listContains rest needle

/-- Models Python `kw in q` (substring containment, no word boundaries). -/
def strIn (kw q : String) : Bool := listContains q.data kw.data

/-- First-match association lookup (as `List.lookup`, phrased with a
propositional `if` so that both `simp` and `decide` evaluate it). -/
def alookup {β : Type} : List (String × β) → String → Option β
  | [], _ => none
  | (k, v) :: rest, key => if k = key then some v else alookup rest key

/-- Python `dict.get(k, 0)` for a dict built by repeated assignment from an
association list (later entries overwrite earlier ones). -/
def dGet (m : List (String × ℤ)) (k : String) : ℤ := (alookup m.reverse k).getD 0

/-- Stable ascending insertion for sorting date keys (Python `sorted`). -/
def insertAsc (x : String) : List String → List String
  | [] => [x]
  | y :: ys => if x ≤ y then x :: y :: ys else y :: insertAsc x ys

/-- Python `sorted(...)` on strings (stable; here keys are distinct anyway). -/
def sortAsc (l : List String) : List String := l.foldr insertAsc []

/-- Python `sorted(d.keys())` for a date-keyed dict. -/
def dictKeysSorted (m : List (String × ℤ)) : List String :=
  sortAsc (m.map Prod.fst).dedup

/-! ## Sentiment keyword lexicons (analyse_sentiment.py) -/

def NEGATIVE_KEYWORDS : List String :=
  ["scandal", "corruption", "fail", "crisis", "resign", "sack", "fired",
   "controversy", "fraud", "lie", "lying", "racist", "racism", "sexist",
   "attack", "slam", "blast", "reject", "oppose", "block", "protest",
   "illegal", "crime", "criminal", "abuse", "hate", "worst", "disaster",
   "collapse", "loss", "lose", "losing", "defeat", "drop", "fall",
   "investigation", "probe", "inquiry", "charged", "arrested", "jail",
   "ban", "penalty", "fine", "waste", "debt", "deficit", "inflation",
   "cost of living", "housing crisis", "broken promise"]

def POSITIVE_KEYWORDS : List String :=
  ["win", "victory", "success", "boost", "surge", "lead", "ahead",
   "popular", "support", "approve", "reform", "invest", "growth",
   "plan", "policy", "announce", "launch", "pledge", "promise",
   "improve", "better", "best", "strong", "unite", "build",
   "fund", "funding", "deliver", "achieve", "progress", "new",
   "innovation", "opportunity", "benefit", "protect", "save"]

/-- `neg_score` of `classify_query`: how many negative keywords occur in the
lowercased query. -/
def negScore (query : String) : ℕ :=
  NEGATIVE_KEYWORDS.countP (fun kw => strIn kw (strLower query))

/-- `pos_score` of `classify_query`. -/
def posScore (query : String) : ℕ :=
  POSITIVE_KEYWORDS.countP (fun kw => strIn kw (strLower query))

/-- `classify_query` from analyse_sentiment.py. -/
def classify_query (query : String) : String :=
  if posScore query < negScore query then "negative"
  else if negScore query < posScore query then "positive"
  else "neutral"

/-! ## Per-entity sentiment aggregation (run_sentiment_analysis) -/

/-- Order-preserving first-occurrence deduplication, modelling
`list(dict.fromkeys(...))`. -/
def dedupFirstAux (seen : List String) : List String → List String
  | [] => []
  | q :: rest =>
    if q ∈ seen then dedupFirstAux seen rest
    else q :: dedupFirstAux (q :: seen) rest

def dedupFirst (l : List String) : List String := dedupFirstAux [] l

structure SentResult where
  party : String
  queries_analysed : ℕ
  positives : ℕ
  negatives : ℕ
  neutrals : ℕ
  sentiment_score : ℚ
  classified_queries : List (String × String)
deriving Repr, DecidableEq

/-- The per-entity body of `run_sentiment_analysis`: filter out empty
queries, deduplicate keeping first occurrences, classify, tally, and score
with `total = len(classified) or 1`. -/
def analyseEntity (party : String) (rawQueries : List String) : SentResult :=
  let all_queries := dedupFirst (rawQueries.filter (fun q => q ≠ ""))
  let classified := all_queries.map (fun q => (q, classify_query q))
  let pos := classified.countP (fun p => p.2 == "positive")
  let neg := classified.countP (fun p => p.2 == "negative")
  let neu := classified.countP (fun p => p.2 == "neutral")
  let total : ℕ := if classified.length = 0 then 1 else classified.length
  { party := party
    queries_analysed := classified.length
    positives := pos
    negatives := neg
    neutrals := neu
    sentiment_score := roundTo 2 (((pos : ℚ) - (neg : ℚ)) / (total : ℚ))
    classified_queries := classified }

structure QItem where
  query : Option String
  value : ℤ
deriving Repr, DecidableEq

structure RQEntry where
  top : List QItem
  rising : List QItem
deriving Repr, DecidableEq

/-- Collecting `top` and `rising` query texts for one entity
(`q.get("query", "")` on each item, absent entity giving `{}`). -/
def collectQueries (rq : List (String × RQEntry)) (code : String) : List String :=
  let pq := (alookup rq code).getD ⟨[], []⟩
  pq.top.map (fun q => q.query.getD "") ++ pq.rising.map (fun q => q.query.getD "")

/-- `run_sentiment_analysis`: one `SentResult` per registry entity, keyed by
entity code, in registry order. -/
def run_sentiment_analysis (entities : List (String × String))
    (rq : List (String × RQEntry)) : List (String × SentResult) :=
  entities.map (fun e => (e.1, analyseEntity e.2 (collectQueries rq e.1)))

/-! ## fetch_trends.py — batched fetch with anchor normalisation -/

/-- One row of a provider response dataframe: a date plus the per-entity
cells (columns already renamed from provider ids to entity codes, and the
`isPartial` column dropped, as the script does before any logic runs). -/
structure DfRow where
  date : String
  cells : List (String × ℤ)
deriving Repr, DecidableEq

/-- `int(row.get(code, 0))` on a dataframe row (column labels are unique). -/
def rowGet (row : DfRow) (code : String) : ℤ := (alookup row.cells code).getD 0

/-- One merged daily record: `{"date": d, code1: v1, ...}`. -/
structure DRec where
  date : String
  vals : List (String × ℤ)
deriving Repr, DecidableEq

/-- `r.get(code, 0)` on a stored daily record. -/
def recGet (r : DRec) (code : String) : ℤ := dGet r.vals code

/-- The `{"timeframe": ..., "geo": ..., "data": [...]}` result object. -/
structure IotData where
  timeframe : String
  geo : String
  data : List DRec
deriving Repr, DecidableEq

def MAX_ENTITIES_PER_REQUEST : ℕ := 5

/-- The `while remaining:` loop of `_batch_entities`, taking successive
chunks of `n` codes.  Structural recursion on a fuel argument equal to the
initial list length (the list shrinks every step for the `n = 4` used here). -/
def chunksOfAux (n : ℕ) : ℕ → List String → List (List String)
  | _, [] => []
  | 0, _ :: _ => []
  | fuel + 1, x :: xs => (x :: xs.take (n - 1)) :: chunksOfAux n fuel (xs.drop (n - 1))

def chunksOf (n : ℕ) (l : List String) : List (List String) := chunksOfAux n l.length l

/-- `_batch_entities`: one batch if at most 5 codes, otherwise the first 5
codes and then anchor-prefixed chunks of 4 of the remaining codes. -/
def batch_entities (codes : List String) : List (List String) :=
  if codes.length ≤ MAX_ENTITIES_PER_REQUEST then [codes]
  else
    (codes.take MAX_ENTITIES_PER_REQUEST) ::
      (chunksOf (MAX_ENTITIES_PER_REQUEST - 1) (codes.drop MAX_ENTITIES_PER_REQUEST)).map
        (fun chunk => codes.headD "" :: chunk)

/-- The per-entity date-keyed column of a response dataframe,
`{date: int(row.get(code, 0)) for each row}`. -/
def colOf (df : List DfRow) (code : String) : List (String × ℤ) :=
  df.map (fun row => (row.date, rowGet row code))

/-- The per-cell normalisation of a later batch: when both anchor readings
for the date are positive, `int(round(raw_val * anchor_first / anchor_this))`,
otherwise the raw value passes through. -/
def normValue (anchor_first anchor_this : List (String × ℤ)) (d : String) (raw : ℤ) : ℤ :=
  let anchor_this_v := dGet anchor_this d
  let anchor_first_v := dGet anchor_first d
  if 0 < anchor_this_v ∧ 0 < anchor_first_v then
    pyRoundInt ((raw : ℚ) * ((anchor_first_v : ℚ) / (anchor_this_v : ℚ)))
  else raw

/-- Mutable state of the multi-batch loop of `fetch_interest_over_time`:
`all_dfs` (code -> date -> value) and `anchor_values_first`. -/
structure FetchState where
  all_dfs : List (String × List (String × ℤ))
  anchor_first : Option (List (String × ℤ))
deriving Repr, DecidableEq

/-- One iteration of the multi-batch loop.  An empty response is skipped.
The first non-empty batch with index 0 records the baseline; later non-empty
batches rescale each non-anchor column against the anchor.  When the
baseline batch was empty (`anchor_first = none`) and a later batch has work
to do, the script evaluates `anchor_values_first.get(d, 0)` with
`anchor_values_first` still `None`, i.e. it raises `AttributeError`; that
uncaught exception is the `.error` branch. -/
def processBatch (anchor : String) (i : ℕ) (batch : List String) (df : List DfRow)
    (st : FetchState) : Except String FetchState :=
  if df.isEmpty then .ok st
  else if i = 0 then
    .ok { all_dfs := st.all_dfs ++ batch.map (fun c => (c, colOf df c)),
          anchor_first := some (colOf df anchor) }
  else
    let anchor_this := colOf df anchor
    match st.anchor_first with
    | some af =>
      .ok { st with all_dfs := st.all_dfs ++
              (batch.filter (fun c => c != anchor)).map (fun c =>
                (c, df.map (fun row =>
                  (row.date, normValue af anchor_this row.date (rowGet row c))))) }
    | none =>
      if (batch.filter (fun c => c != anchor)).isEmpty then .ok st
      else .error "AttributeError: NoneType object has no attribute get"

/-- The `for i, batch in enumerate(batches):` loop. -/
def processBatches (anchor : String) :
    ℕ → FetchState → List (List String × List DfRow) → Except String FetchState
  | _, st, [] => .ok st
  | i, st, (batch, df) :: rest =>
    match processBatch anchor i batch df st with
    | .error e => .error e
    | .ok st2 => processBatches anchor (i + 1) st2 rest

/-- `fetch_interest_over_time`, with the provider's per-batch responses given
as data.  Returns `.ok none` for the `return {}` paths (empty single-batch
response, or all batches empty), `.error` when the script would raise. -/
def fetch_interest_over_time (timeframe geo : String) (codes : List String)
    (responses : List (List DfRow)) : Except String (Option IotData) :=
  let batches := batch_entities codes
  if batches.length = 1 then
    let df := responses.headD []
    if df.isEmpty then .ok none
    else
      let recs := df.map (fun row =>
        { date := row.date, vals := codes.map (fun c => (c, rowGet row c)) : DRec })
      .ok (some { timeframe := timeframe, geo := geo, data := recs })
  else
    match processBatches (codes.headD "") 0 ⟨[], none⟩ (batches.zip responses) with
    | .error e => .error e
    | .ok st =>
      if st.all_dfs.isEmpty then .ok none
      else
        let all_dates := match st.anchor_first with
          | some af => dictKeysSorted af
          | none => []
        let recs := all_dates.map (fun d =>
          { date := d,
            vals := codes.map (fun c =>
              (c, dGet ((alookup st.all_dfs c).getD []) d)) : DRec })
        .ok (some { timeframe := timeframe, geo := geo, data := recs })

/-! ## detect_spikes.py — spike detection -/

def SPIKE_THRESHOLD : ℚ := 2
def ROLLING_WINDOW : ℕ := 7
def MIN_ABSOLUTE : ℤ := 10

/-- A matched news entry stored on a spike (all fields strings). -/
structure MArt where
  title : String
  source : String
  url : String
  date : String
deriving Repr, DecidableEq

/-- A spike record.  The JSON fields `rolling_avg` and `ratio` are the
fields `rolling_avg` and `ratioQ` here (the latter renamed for technical
reasons only). -/
structure Spike where
  date : String
  party_code : String
  party_name : String
  value : ℤ
  rolling_avg : ℚ
  ratioQ : ℚ
  explanation : Option String
  news : List MArt
deriving Repr, DecidableEq

/-- Stable descending insertion by the stored (rounded) ratio. -/
def insertSpikeDesc (s : Spike) : List Spike → List Spike
  | [] => [s]
  | t :: ts => if t.ratioQ ≤ s.ratioQ then s :: t :: ts else t :: insertSpikeDesc s ts

/-- Python's stable `sort(key=ratio, reverse=True)`.  A stable sort by a
total preorder is unique, so this insertion sort computes the same list. -/
def sortSpikesDesc (l : List Spike) : List Spike := l.foldr insertSpikeDesc []

/-- The body of the inner loop of `detect_spikes` at one index `i`:
window of the 7 previous values, rolling average, threshold tests. -/
def detectAt (dates : List String) (code name : String) (values : List ℤ) (i : ℕ) :
    Option Spike :=
  let current := values.getD i 0
  let window := (values.drop (i - ROLLING_WINDOW)).take ROLLING_WINDOW
  let rolling_avg : ℚ :=
    if window.isEmpty then 0
    else (window.map (fun v => (v : ℚ))).sum / (window.length : ℚ)
  if 0 < rolling_avg ∧ MIN_ABSOLUTE ≤ current then
    let r := (current : ℚ) / rolling_avg
    if SPIKE_THRESHOLD ≤ r then
      some { date := dates.getD i "", party_code := code, party_name := name,
             value := current, rolling_avg := roundTo 1 rolling_avg,
             ratioQ := roundTo 1 r, explanation := none, news := [] }
    else none
  else none

/-- `detect_spikes`: series shorter than 8 records yield no spikes;
otherwise scan indices 7.. per entity, then sort by ratio descending and
keep the top 10. -/
def detect_spikes (iot : IotData) (entities : List (String × String)) : List Spike :=
  let records := iot.data
  if records.length < ROLLING_WINDOW + 1 then []
  else
    let codes := entities.map Prod.fst
    let spikes := codes.flatMap (fun code =>
      let values := records.map (fun r => recGet r code)
      (List.range' ROLLING_WINDOW (values.length - ROLLING_WINDOW)).filterMap
        (detectAt (records.map DRec.date) code ((alookup entities code).getD "") values))
    (sortSpikesDesc spikes).take 10

/-! ## Reference formulation of SpikeDetector (spec §4.2, claim C2) -/

/-- One index of the reference rule: `rolling_avg` is the mean of the 7
values strictly before `i`, and a spike needs `rolling_avg > 0`,
`values[i] >= 10` and `values[i]/rolling_avg >= 2`. -/
def specAt (dates : List String) (code name : String) (values : List ℤ) (i : ℕ) :
    Option Spike :=
  let v := values.getD i 0
  let rolling_avg : ℚ := (((values.drop (i - 7)).take 7).map (fun x => (x : ℚ))).sum / 7
  if 0 < rolling_avg ∧ 10 ≤ v ∧ 2 ≤ (v : ℚ) / rolling_avg then
    some { date := dates.getD i "", party_code := code, party_name := name,
           value := v, rolling_avg := roundTo 1 rolling_avg,
           ratioQ := roundTo 1 ((v : ℚ) / rolling_avg), explanation := none, news := [] }
  else none

/-- SpikeDetector as the spec states it: the flagged days per entity for
indices 7.., sorted descending by stored ratio, truncated to 10; series of
fewer than 8 records give no spikes. -/
def spikeSpec (iot : IotData) (entities : List (String × String)) : List Spike :=
  let records := iot.data
  if records.length < 8 then []
  else
    let codes := entities.map Prod.fst
    let spikes := codes.flatMap (fun code =>
      let values := records.map (fun r => recGet r code)
      (List.range' 7 (values.length - 7)).filterMap
        (specAt (records.map DRec.date) code ((alookup entities code).getD "") values))
    (sortSpikesDesc spikes).take 10

/-! ## detect_spikes.py — news matching -/

/-- An externally supplied news article: `title` is always present in the
feed shape, `source`/`url` are read with `.get(..., "")`, and `date` is
read with `.get("date")` (possibly absent or null). -/
structure Article where
  title : String
  source : Option String
  url : Option String
  date : Option String
deriving Repr, DecidableEq

def isLeap (y : ℕ) : Bool := y % 4 == 0 && (y % 100 != 0 || y % 400 == 0)

def daysInMonth (y m : ℕ) : ℕ :=
  if m == 2 then (if isLeap y then 29 else 28)
  else if m == 4 || m == 6 || m == 9 || m == 11 then 30
  else 31

def daysBeforeMonth (y m : ℕ) : ℕ :=
  ((List.range (m - 1)).map (fun k => daysInMonth y (k + 1))).sum

/-- Proleptic-Gregorian ordinal day of a calendar date (as in
`datetime.date.toordinal`). -/
def toOrdinal (y m d : ℕ) : ℕ :=
  365 * (y - 1) + (y - 1) / 4 - (y - 1) / 100 + (y - 1) / 400 + daysBeforeMonth y m + d

/-- `str.split`-style splitting of a char list on the dash character. -/
def splitDashAux : List Char → List Char → List (List Char)
  | [], acc => [acc.reverse]
  | c :: rest, acc =>
    if c = '-' then acc.reverse :: splitDashAux rest []
    else splitDashAux rest (c :: acc)

def allDigits (cs : List Char) : Bool := cs.all Char.isDigit

def digitsToNat (cs : List Char) : ℕ := cs.foldl (fun n c => n * 10 + (c.toNat - 48)) 0

/-- Models `datetime.strptime(s, "%Y-%m-%d").date().toordinal()`: a 4-digit
year, a 1-2 digit month 1..12, a 1-2 digit day valid for that month;
anything else raises `ValueError`, i.e. parses to `none`. -/
def parseDate (s : String) : Option ℕ :=
  match splitDashAux s.data [] with
  | [ys, ms, ds] =>
    if allDigits ys = true ∧ allDigits ms = true ∧ allDigits ds = true ∧
        ys.length = 4 ∧ 1 ≤ ms.length ∧ ms.length ≤ 2 ∧ 1 ≤ ds.length ∧ ds.length ≤ 2 then
      let y := digitsToNat ys
      let m := digitsToNat ms
      let d := digitsToNat ds
      if 1 ≤ y ∧ 1 ≤ m ∧ m ≤ 12 ∧ 1 ≤ d ∧ d ≤ daysInMonth y m then
        some (toOrdinal y m d)
      else none
    else none
  | _ => none

/-- `abs((article_date - spike_date).days)`. -/
def dayDiff (a b : ℕ) : ℕ := ((a : ℤ) - (b : ℤ)).natAbs

def FALLBACK_EXPLANATION : String := "Significant spike in search interest"

/-- The article-scanning loop of `match_news_to_spikes` for one spike:
skip falsy (`None`/empty) dates, skip unparseable dates, keep articles
within 2 days of the spike. -/
def matchedArticles (articles : List Article) (spike_date : ℕ) : List MArt :=
  articles.filterMap (fun a =>
    match a.date with
    | none => none
    | some ds =>
      if ds = "" then none
      else
        match parseDate ds with
        | none => none
        | some ad =>
          if dayDiff ad spike_date ≤ 2 then
            some { title := a.title, source := a.source.getD "",
                   url := a.url.getD "", date := ds }
          else none)

/-- The per-spike update: top 3 matches and the explanation
(first matching headline, else the generic fallback). -/
def processSpike (news_data : List (String × List Article)) (s : Spike) (sd : ℕ) : Spike :=
  let matching := matchedArticles ((alookup news_data s.party_code).getD []) sd
  { s with news := matching.take 3,
           explanation := some (match matching with
             | m :: _ => m.title
             | [] => FALLBACK_EXPLANATION) }

/-- `match_news_to_spikes`.  The spike's own date goes through `strptime`
unguarded, so an unparseable spike date raises (the `.error` branch); the
articles are handled with `continue`-style skips and never raise. -/
def match_news_to_spikes : List Spike → List (String × List Article) → Except String (List Spike)
  | [], _ => .ok []
  | s :: rest, nd =>
    match parseDate s.date with
    | none => .error "ValueError: time data does not match format"
    | some sd =>
      match match_news_to_spikes rest nd with
      | .error e => .error e
      | .ok rest2 => .ok (processSpike nd s sd :: rest2)

/-! ## Reference formulation of NewsMatcher (spec §4.3, claim C4) -/

/-- The qualifying articles per the spec: those with a parseable date within
2 days of the spike date, in original feed order. -/
def qualifying (news_data : List (String × List Article)) (s : Spike) : List MArt :=
  ((alookup news_data s.party_code).getD []).filterMap (fun a =>
    match a.date with
    | none => none
    | some ds =>
      match parseDate ds with
      | none => none
      | some ad =>
        if dayDiff ad ((parseDate s.date).getD 0) ≤ 2 then
          some { title := a.title, source := a.source.getD "",
                 url := a.url.getD "", date := ds }
        else none)

/-- NewsMatcher as the spec states it for one spike: keep at most the first
3 qualifying articles, explanation is the first retained title or the
generic fallback. -/
def newsSpec (news_data : List (String × List Article)) (s : Spike) : Spike :=
  { s with news := (qualifying news_data s).take 3,
           explanation := some (match qualifying news_data s with
             | m :: _ => m.title
             | [] => FALLBACK_EXPLANATION) }

/-! ## weekly_analysis.py — determine_winner -/

/-- Average search interest of `code` over the last 7 records
(`sum(...) / max(len(last_7), 1)`). -/
def avgInterest (records : List DRec) (code : String) : ℚ :=
  let last7 := if 7 ≤ records.length then records.drop (records.length - 7) else records
  (last7.map (fun r => (recGet r code : ℚ))).sum / (max last7.length 1 : ℚ)

/-- `records[-14:-7]` when at least 14 records exist, else the empty window. -/
def prevSeven (records : List DRec) : List DRec :=
  if 14 ≤ records.length then (records.drop (records.length - 14)).take 7 else []

/-- Previous-window average (`0` for the empty window). -/
def prevAvg (records : List DRec) (code : String) : ℚ :=
  let prev7 := prevSeven records
  if prev7.isEmpty then 0
  else (prev7.map (fun r => (recGet r code : ℚ))).sum / (prev7.length : ℚ)

/-- Week-over-week momentum:
`round(((avg - prev) / prev) * 100, 1)` when `prev > 0`, else `0`. -/
def momentumOf (records : List DRec) (code : String) : ℚ :=
  if 0 < prevAvg records code then
    roundTo 1 ((avgInterest records code - prevAvg records code) / prevAvg records code * 100)
  else 0

/-- `sentiment_data[code].get("sentiment_score", 0)` guarded by
`if code in sentiment_data`, with the loaded mapping abstracted to
code -> score. -/
def sentimentScoreOf (sentiment : List (String × ℚ)) (code : String) : ℚ :=
  (alookup sentiment code).getD 0

/-- `max(avg_interest.values())` for a non-empty registry; this is also the
spec's "max over entities of avg_interest". -/
def maxAvgInterest (records : List DRec) (codes : List String) : ℚ :=
  match codes.map (avgInterest records) with
  | [] => 0
  | v :: vs => vs.foldl max v

/-- Combined weekly score:
`round(0.7 * avg/max_interest + 0.3 * (sentiment+1)/2, 3)` with
`max_interest = max(avg_interest.values()) or 1`. -/
def combinedOf (records : List DRec) (sentiment : List (String × ℚ))
    (codes : List String) (code : String) : ℚ :=
  let m := maxAvgInterest records codes
  let max_interest := if m = 0 then 1 else m
  roundTo 3 ((7 / 10 : ℚ) * (avgInterest records code / max_interest) +
    (3 / 10 : ℚ) * ((sentimentScoreOf sentiment code + 1) / 2))

/-- Python `max(codes, key=f)` for the non-empty list `c0 :: rest`: the
first element attaining the maximum wins. -/
def pyArgmax (f : String → ℚ) (c0 : String) (rest : List String) : String :=
  rest.foldl (fun best c => if f best < f c then c else best) c0

/-- The analysis object built by `determine_winner` (without the
presentation-only `summary` string). -/
structure Weekly where
  period_start : String
  period_end : String
  avg_interest : List (String × ℚ)
  momentum_pct : List (String × ℚ)
  sentiment_scores : List (String × ℚ)
  combined_scores : List (String × ℚ)
  search_winner : String
  overall_winner : String
deriving Repr, DecidableEq

/-- `determine_winner`.  `max()` over the empty registry raises
`ValueError` in Python, modelled as `none`. -/
def determine_winner (iot : IotData) (sentiment : List (String × ℚ))
    (entities : List (String × String)) : Option Weekly :=
  let records := iot.data
  match entities.map Prod.fst with
  | [] => none
  | c0 :: crest =>
    let codes := c0 :: crest
    let last7 := if 7 ≤ records.length then records.drop (records.length - 7) else records
    some {
      period_start := (last7.map DRec.date).headD "N/A",
      period_end := (last7.map DRec.date).getLastD "N/A",
      avg_interest := codes.map (fun c => (c, roundTo 1 (avgInterest records c))),
      momentum_pct := codes.map (fun c => (c, momentumOf records c)),
      sentiment_scores := codes.map (fun c => (c, sentimentScoreOf sentiment c)),
      combined_scores := codes.map (fun c => (c, combinedOf records sentiment codes c)),
      search_winner := pyArgmax (avgInterest records) c0 crest,
      overall_winner := pyArgmax (combinedOf records sentiment codes) c0 crest }

/-! ## Concrete example inputs used by the worked examples -/

/-- Worked-example inputs of spec §8 scenario 4: a week of interest 80 for
A and 40 for B, sentiment -1.0 for A and 0.5 for B. -/
def exRecsAB : List DRec :=
  ["2025-08-01", "2025-08-02", "2025-08-03", "2025-08-04", "2025-08-05",
   "2025-08-06", "2025-08-07"].map
    (fun d => { date := d, vals := [("A", 80), ("B", 40)] })

def exIotAB : IotData := { timeframe := "today 3-m", geo := "AU", data := exRecsAB }

def exSentAB : List (String × ℚ) := [("A", -1), ("B", 1 / 2)]

def exEntitiesAB : List (String × String) := [("A", "Party A"), ("B", "Party B")]

/-! ## Concrete fetch inputs: 7 entities, 2 batches (spec §8 scenario 3) -/

def exCodes7 : List String := ["p1", "p2", "p3", "p4", "p5", "p6", "p7"]

def exDf1 : List DfRow :=
  [{ date := "2025-06-01",
     cells := [("p1", 50), ("p2", 30), ("p3", 20), ("p4", 10), ("p5", 5)] }]

def exDf2 : List DfRow :=
  [{ date := "2025-06-01", cells := [("p1", 25), ("p6", 10), ("p7", 5)] }]

def exIotEmpty : IotData := ⟨"today 3-m", "AU", []⟩

def exSpikes : List Spike :=
  [{ date := "2025-03-10", party_code := "alp", party_name := "ALP", value := 40,
     rolling_avg := 10, ratioQ := 4, explanation := none, news := [] },
   { date := "2025-03-12", party_code := "grn", party_name := "GRN", value := 20,
     rolling_avg := 10, ratioQ := 2, explanation := none, news := [] }]

def exNews : List (String × List Article) :=
  [("alp",
    [{ title := "ALP wins key vote", source := some "news", url := some "u1",
       date := some "2025-03-11" },
     { title := "No date", source := none, url := none, date := none },
     { title := "Bad date", source := some "x", url := some "u2",
       date := some "not-a-date" },
     { title := "Too far away", source := some "y", url := some "u3",
       date := some "2025-04-01" }])]

/-! ## Properties of the rounding helpers -/

theorem fdiv_num_den_eq_floor (x : ℚ) : Int.fdiv x.num x.den = ⌊x⌋ := by
  rw [Int.fdiv_eq_ediv _ (by exact_mod_cast Nat.zero_le x.den), Rat.floor_def]

theorem floor_le_pyRoundInt (x : ℚ) : ⌊x⌋ ≤ pyRoundInt x := by
  simp only [pyRoundInt, fdiv_num_den_eq_floor]
  split_ifs <;> omega

theorem pyRoundInt_le {x : ℚ} {n : ℤ} (h : x ≤ (n : ℚ)) : pyRoundInt x ≤ n := by
  have hfl : ⌊x⌋ ≤ n := by
    have := Int.floor_le_floor h
    rwa [Int.floor_intCast] at this
  have hdenpos : (0 : ℤ) < (x.den : ℤ) := by exact_mod_cast x.den_pos
  have hrem : x.num - ⌊x⌋ * x.den = x.num % x.den := by
    rw [Rat.floor_def, Int.emod_def]; ring
  have hnum : (x.num : ℚ) = x * (x.den : ℚ) := by
    have hne : ((x.den : ℚ)) ≠ 0 := Nat.cast_ne_zero.mpr x.den_pos.ne'
    exact (div_eq_iff hne).mp (Rat.num_div_den x)
  -- when the remainder is positive, the floor is strictly below x, hence below n
  have hstep : 0 < x.num - ⌊x⌋ * x.den → ⌊x⌋ + 1 ≤ n := by
    intro hrpos
    have hq : (0 : ℚ) < ((x.num - ⌊x⌋ * x.den : ℤ) : ℚ) := by exact_mod_cast hrpos
    have hq2 : (⌊x⌋ : ℚ) * (x.den : ℚ) < x * (x.den : ℚ) := by
      push_cast at hq
      linarith [hq, hnum]
    have hxlt : (⌊x⌋ : ℚ) < x := by
      have hdq : (0 : ℚ) < (x.den : ℚ) := by exact_mod_cast hdenpos
      exact lt_of_mul_lt_mul_right hq2 (le_of_lt hdq)
    have : (⌊x⌋ : ℚ) < (n : ℚ) := lt_of_lt_of_le hxlt h
    have : ⌊x⌋ < n := by exact_mod_cast this
    omega
  simp only [pyRoundInt, fdiv_num_den_eq_floor]
  split_ifs with h1 h2 h3
  · exact hfl
  · exact hstep (by omega)
  · exact hfl
  · exact hstep (by omega)

theorem le_pyRoundInt {x : ℚ} {n : ℤ} (h : (n : ℚ) ≤ x) : n ≤ pyRoundInt x := by
  have hfl : n ≤ ⌊x⌋ := Int.le_floor.mpr h
  exact le_trans hfl (floor_le_pyRoundInt x)

theorem roundTo_le {d : ℕ} {x : ℚ} {n : ℤ} (h : x ≤ (n : ℚ)) : roundTo d x ≤ (n : ℚ) := by
  have hpow : (0 : ℚ) < 10 ^ d := by positivity
  have hmul : x * 10 ^ d ≤ ((n * 10 ^ d : ℤ) : ℚ) := by
    push_cast
    exact mul_le_mul_of_nonneg_right h (le_of_lt hpow)
  have hint : pyRoundInt (x * 10 ^ d) ≤ n * 10 ^ d := pyRoundInt_le hmul
  rw [roundTo, div_le_iff₀ hpow]
  calc (pyRoundInt (x * 10 ^ d) : ℚ) ≤ ((n * 10 ^ d : ℤ) : ℚ) := by exact_mod_cast hint
  _ = (n : ℚ) * 10 ^ d := by push_cast; ring

theorem le_roundTo {d : ℕ} {x : ℚ} {n : ℤ} (h : (n : ℚ) ≤ x) : (n : ℚ) ≤ roundTo d x := by
  have hpow : (0 : ℚ) < 10 ^ d := by positivity
  have hmul : ((n * 10 ^ d : ℤ) : ℚ) ≤ x * 10 ^ d := by
    push_cast
    exact mul_le_mul_of_nonneg_right h (le_of_lt hpow)
  have hint : n * 10 ^ d ≤ pyRoundInt (x * 10 ^ d) := le_pyRoundInt hmul
  rw [roundTo, le_div_iff₀ hpow]
  calc (n : ℚ) * 10 ^ d = ((n * 10 ^ d : ℤ) : ℚ) := by push_cast; ring
  _ ≤ (pyRoundInt (x * 10 ^ d) : ℚ) := by exact_mod_cast hint

theorem pyRoundInt_intCast (n : ℤ) : pyRoundInt ((n : ℤ) : ℚ) = n := by
  simp [pyRoundInt, Rat.num_intCast, Rat.den_intCast, Int.fdiv_one]

/-- Evaluation helper: when `x * 10^d` is the integer `m`,
`roundTo d x = m / 10^d`. -/
theorem roundTo_eq_of_eq_intCast {d : ℕ} {x : ℚ} {m : ℤ} (h : x * 10 ^ d = (m : ℚ)) :
    roundTo d x = (m : ℚ) / 10 ^ d := by
  rw [roundTo, h, pyRoundInt_intCast]

theorem roundTo_zero (d : ℕ) : roundTo d 0 = 0 := by
  rw [roundTo_eq_of_eq_intCast (m := 0) (by push_cast; ring)]
  norm_num

/-! ## Claim theorems -/

/-- C5: for every query, `classify_query` returns one of
positive/negative/neutral; it returns negative iff the negative keyword
count strictly exceeds the positive one, positive iff the positive count
strictly exceeds the negative one, and neutral exactly when the counts are
equal; and `"labor government scandal"` is classified negative. -/
theorem classify_query_trichotomy (q : String) :
    (classify_query q = "positive" ∨ classify_query q = "negative" ∨
      classify_query q = "neutral")
    ∧ (classify_query q = "negative" ↔ posScore q < negScore q)
    ∧ (classify_query q = "positive" ↔ negScore q < posScore q)
    ∧ (classify_query q = "neutral" ↔ negScore q = posScore q)
    ∧ classify_query "labor government scandal" = "negative" := by
  have hex : classify_query "labor government scandal" = "negative" := by decide
  unfold classify_query
  rcases Nat.lt_trichotomy (posScore q) (negScore q) with h | h | h
  · rw [if_pos h]
    exact ⟨Or.inr (Or.inl rfl), iff_of_true rfl h,
      iff_of_false (by decide) (by omega), iff_of_false (by decide) (by omega), hex⟩
  · rw [if_neg (by omega), if_neg (by omega)]
    exact ⟨Or.inr (Or.inr rfl), iff_of_false (by decide) (by omega),
      iff_of_false (by decide) (by omega), iff_of_true rfl h.symm, hex⟩
  · rw [if_neg (by omega), if_pos h]
    exact ⟨Or.inl rfl, iff_of_false (by decide) (by omega), iff_of_true rfl h,
      iff_of_false (by decide) (by omega), hex⟩

/-- C10: each keyword contributes at most 1 per query: the polarity counts
equal the number of distinct keywords of the respective (duplicate-free)
lexicon occurring as substrings of the lowercased query. -/
theorem keyword_counts_are_distinct_counts (q : String) :
    negScore q =
      ((NEGATIVE_KEYWORDS.filter (fun kw => strIn kw (strLower q))).dedup).length
    ∧ posScore q =
      ((POSITIVE_KEYWORDS.filter (fun kw => strIn kw (strLower q))).dedup).length
    ∧ NEGATIVE_KEYWORDS.Nodup ∧ POSITIVE_KEYWORDS.Nodup := by
  have hn : NEGATIVE_KEYWORDS.Nodup := by decide
  have hp : POSITIVE_KEYWORDS.Nodup := by decide
  refine ⟨?_, ?_, hn, hp⟩
  · rw [negScore, List.countP_eq_length_filter, List.dedup_eq_self.mpr (hn.filter _)]
  · rw [posScore, List.countP_eq_length_filter, List.dedup_eq_self.mpr (hp.filter _)]

/-- C6: the per-entity sentiment score equals
`(positive - negative) / total` rounded to 2 decimals, with `total` the
analysed query count or 1 when no queries were analysed (the zero-query
case scoring 0); consequently the score always lies in `[-1, 1]`. -/
theorem sentiment_score_formula_bounds (party : String) (qs : List String) :
    (analyseEntity party qs).sentiment_score =
      roundTo 2 ((((analyseEntity party qs).positives : ℚ) -
          ((analyseEntity party qs).negatives : ℚ)) /
        (if (analyseEntity party qs).queries_analysed = 0 then (1 : ℚ)
         else ((analyseEntity party qs).queries_analysed : ℚ)))
    ∧ (-1 : ℚ) ≤ (analyseEntity party qs).sentiment_score
    ∧ (analyseEntity party qs).sentiment_score ≤ 1
    ∧ ((analyseEntity party qs).queries_analysed = 0 →
        (analyseEntity party qs).sentiment_score = 0) := by
  simp only [analyseEntity]
  set cl := (dedupFirst (qs.filter (fun q => q ≠ ""))).map
    (fun q => (q, classify_query q)) with hcl
  set P := cl.countP (fun p => p.2 == "positive") with hP
  set N := cl.countP (fun p => p.2 == "negative") with hN
  have hPle : P ≤ cl.length := List.countP_le_length _
  have hNle : N ≤ cl.length := List.countP_le_length _
  have hcast : (((if cl.length = 0 then 1 else cl.length : ℕ)) : ℚ) =
      (if cl.length = 0 then (1 : ℚ) else (cl.length : ℚ)) := by
    rw [apply_ite (fun n : ℕ => (n : ℚ))]
    norm_num
  refine ⟨by rw [hcast], ?_, ?_, ?_⟩
  · -- lower bound
    by_cases hL : cl.length = 0
    · have hcl0 : cl = [] := List.length_eq_zero.mp hL
      have hval : (((P : ℚ) - N) /
          ((if cl.length = 0 then 1 else cl.length : ℕ) : ℚ)) = 0 := by
        rw [hP, hN, hcl0]
        simp
      rw [hval, roundTo_zero]
      norm_num
    · rw [hcast]
      have hTpos : (0 : ℚ) < (cl.length : ℚ) := by
        exact_mod_cast Nat.pos_of_ne_zero hL
      have hlow : ((-1 : ℤ) : ℚ) ≤
          ((P : ℚ) - N) / (if cl.length = 0 then (1 : ℚ) else (cl.length : ℚ)) := by
        rw [if_neg hL, le_div_iff₀ hTpos]
        have h1 : (N : ℚ) ≤ (cl.length : ℚ) := by exact_mod_cast hNle
        have h2 : (0 : ℚ) ≤ (P : ℚ) := Nat.cast_nonneg _
        push_cast
        linarith
      have := le_roundTo (d := 2) hlow
      push_cast at this
      linarith
  · -- upper bound
    by_cases hL : cl.length = 0
    · have hcl0 : cl = [] := List.length_eq_zero.mp hL
      have hval : (((P : ℚ) - N) /
          ((if cl.length = 0 then 1 else cl.length : ℕ) : ℚ)) = 0 := by
        rw [hP, hN, hcl0]
        simp
      rw [hval, roundTo_zero]
      norm_num
    · rw [hcast]
      have hTpos : (0 : ℚ) < (cl.length : ℚ) := by
        exact_mod_cast Nat.pos_of_ne_zero hL
      have hup : ((P : ℚ) - N) /
          (if cl.length = 0 then (1 : ℚ) else (cl.length : ℚ)) ≤ ((1 : ℤ) : ℚ) := by
        rw [if_neg hL, div_le_iff₀ hTpos]
        have h1 : (P : ℚ) ≤ (cl.length : ℚ) := by exact_mod_cast hPle
        have h2 : (0 : ℚ) ≤ (N : ℚ) := Nat.cast_nonneg _
        push_cast
        linarith
      have := roundTo_le (d := 2) hup
      push_cast at this
      linarith
  · -- zero analysed queries score 0
    intro hL
    have hcl0 : cl = [] := List.length_eq_zero.mp hL
    have hval : (((P : ℚ) - N) /
        ((if cl.length = 0 then 1 else cl.length : ℕ) : ℚ)) = 0 := by
      rw [hP, hN, hcl0]
      simp
    rw [hval, roundTo_zero]

/-- C7: the reported momentum is
`round(100 * (avg - prev_avg) / prev_avg, 1)` when the previous-window
average is positive and exactly `0` otherwise; in particular it is `0` for
every entity when fewer than 14 records exist. -/
theorem momentum_formula (iot : IotData) (sentiment : List (String × ℚ))
    (entities : List (String × String)) (hne : entities ≠ []) :
    (determine_winner iot sentiment entities).map Weekly.momentum_pct =
      some ((entities.map Prod.fst).map (fun c => (c,
        if 0 < prevAvg iot.data c then
          roundTo 1 (100 * (avgInterest iot.data c - prevAvg iot.data c) /
            prevAvg iot.data c)
        else 0)))
    ∧ (iot.data.length < 14 →
        (determine_winner iot sentiment entities).map Weekly.momentum_pct =
          some ((entities.map Prod.fst).map (fun c => (c, (0 : ℚ))))) := by
  have hmom : ∀ c, momentumOf iot.data c =
      (if 0 < prevAvg iot.data c then
        roundTo 1 (100 * (avgInterest iot.data c - prevAvg iot.data c) /
          prevAvg iot.data c)
      else 0) := by
    intro c
    unfold momentumOf
    by_cases h : 0 < prevAvg iot.data c
    · rw [if_pos h, if_pos h]
      congr 1
      ring
    · rw [if_neg h, if_neg h]
  have heq : (determine_winner iot sentiment entities).map Weekly.momentum_pct =
      some ((entities.map Prod.fst).map (fun c => (c,
        if 0 < prevAvg iot.data c then
          roundTo 1 (100 * (avgInterest iot.data c - prevAvg iot.data c) /
            prevAvg iot.data c)
        else 0))) := by
    cases entities with
    | nil => exact absurd rfl hne
    | cons e es =>
      simp only [determine_winner, List.map_cons, Option.map_some']
      simp only [hmom]
  refine ⟨heq, fun h14 => ?_⟩
  rw [heq]
  congr 1
  apply List.map_congr_left
  intro c _
  have h7 : prevSeven iot.data = [] := by
    unfold prevSeven
    rw [if_neg (by omega)]
  have hprev : prevAvg iot.data c = 0 := by
    unfold prevAvg
    rw [h7]
    simp
  rw [hprev]
  simp

/-- C9: every entity_code-keyed mapping the core produces — the per-date
values of each merged interest record, the sentiment results, and the four
weekly maps — has key list exactly the registry code list. -/
theorem entity_key_completeness :
    (∀ (tf geo : String) (codes : List String) (responses : List (List DfRow))
        (out : IotData),
        fetch_interest_over_time tf geo codes responses = .ok (some out) →
        ∀ r ∈ out.data, r.vals.map Prod.fst = codes)
    ∧ (∀ (entities : List (String × String)) (rq : List (String × RQEntry)),
        (run_sentiment_analysis entities rq).map Prod.fst = entities.map Prod.fst)
    ∧ (∀ (iot : IotData) (sentiment : List (String × ℚ))
        (entities : List (String × String)), entities ≠ [] →
        (determine_winner iot sentiment entities).map
            (fun w => w.avg_interest.map Prod.fst) = some (entities.map Prod.fst) ∧
        (determine_winner iot sentiment entities).map
            (fun w => w.momentum_pct.map Prod.fst) = some (entities.map Prod.fst) ∧
        (determine_winner iot sentiment entities).map
            (fun w => w.sentiment_scores.map Prod.fst) = some (entities.map Prod.fst) ∧
        (determine_winner iot sentiment entities).map
            (fun w => w.combined_scores.map Prod.fst) = some (entities.map Prod.fst)) := by
  refine ⟨?_, ?_, ?_⟩
  · intro tf geo codes responses out h r hr
    unfold fetch_interest_over_time at h
    by_cases hb : (batch_entities codes).length = 1
    · rw [if_pos hb] at h
      by_cases hdf : (responses.headD []).isEmpty
      · rw [if_pos hdf] at h
        simp at h
      · rw [if_neg hdf] at h
        simp only [Except.ok.injEq, Option.some.injEq] at h
        subst h
        simp only [List.mem_map] at hr
        obtain ⟨row, _, hrow⟩ := hr
        subst hrow
        simp [List.map_map, Function.comp_def]
    · rw [if_neg hb] at h
      split at h
      · simp at h
      · rename_i st hps
        by_cases hempty : st.all_dfs.isEmpty
        · rw [if_pos hempty] at h
          simp at h
        · rw [if_neg hempty] at h
          simp only [Except.ok.injEq, Option.some.injEq] at h
          subst h
          simp only [List.mem_map] at hr
          obtain ⟨d, _, hd⟩ := hr
          subst hd
          simp [List.map_map, Function.comp_def]
  · intro entities rq
    unfold run_sentiment_analysis
    simp [List.map_map, Function.comp_def]
  · intro iot sentiment entities hne
    cases entities with
    | nil => exact absurd rfl hne
    | cons e es =>
      refine ⟨?_, ?_, ?_, ?_⟩ <;>
        simp [determine_winner, List.map_map, Function.comp_def]

theorem le_foldl_max (v0 : ℚ) (vs : List ℚ) :
    v0 ≤ vs.foldl max v0 ∧ ∀ v ∈ vs, v ≤ vs.foldl max v0 := by
  induction vs generalizing v0 with
  | nil => simp
  | cons w ws ih =>
    refine ⟨le_trans (le_max_left v0 w) (ih (max v0 w)).1, ?_⟩
    intro v hv
    rcases List.mem_cons.mp hv with rfl | hv
    · exact le_trans (le_max_right v0 v) (ih (max v0 v)).1
    · exact (ih (max v0 w)).2 v hv

theorem avg_le_maxAvg (records : List DRec) (codes : List String) (c : String)
    (hc : c ∈ codes) : avgInterest records c ≤ maxAvgInterest records codes := by
  cases codes with
  | nil => cases hc
  | cons c0 cs =>
    simp only [maxAvgInterest, List.map_cons]
    rcases List.mem_cons.mp hc with rfl | hc
    · exact (le_foldl_max _ _).1
    · exact (le_foldl_max _ _).2 _ (List.mem_map_of_mem _ hc)

/-- With the week's averages non-negative, the combined score computed by
the code (with its `or 1` guard) matches the spec formula that divides by
the bare maximum. -/
theorem combinedOf_eq_spec (records : List DRec) (sentiment : List (String × ℚ))
    (codes : List String) (c : String) (hc : c ∈ codes)
    (hpos : ∀ x ∈ codes, 0 ≤ avgInterest records x) :
    combinedOf records sentiment codes c =
      roundTo 3 ((7 / 10 : ℚ) *
          (avgInterest records c / maxAvgInterest records codes) +
        (3 / 10 : ℚ) * ((sentimentScoreOf sentiment c + 1) / 2)) := by
  simp only [combinedOf]
  by_cases hm : maxAvgInterest records codes = 0
  · rw [if_pos hm]
    have hc0 : avgInterest records c = 0 :=
      le_antisymm (hm ▸ avg_le_maxAvg records codes c hc) (hpos c hc)
    rw [hc0, hm]
    norm_num
  · rw [if_neg hm]

theorem combinedOf_mem_unit (records : List DRec) (sentiment : List (String × ℚ))
    (codes : List String) (c : String) (hc : c ∈ codes)
    (hpos : ∀ x ∈ codes, 0 ≤ avgInterest records x)
    (hs : -1 ≤ sentimentScoreOf sentiment c ∧ sentimentScoreOf sentiment c ≤ 1) :
    0 ≤ combinedOf records sentiment codes c ∧
      combinedOf records sentiment codes c ≤ 1 := by
  simp only [combinedOf]
  have hni : 0 ≤ avgInterest records c /
        (if maxAvgInterest records codes = 0 then 1 else maxAvgInterest records codes) ∧
      avgInterest records c /
        (if maxAvgInterest records codes = 0 then 1 else maxAvgInterest records codes) ≤ 1 := by
    by_cases hm : maxAvgInterest records codes = 0
    · rw [if_pos hm]
      have hc0 : avgInterest records c = 0 :=
        le_antisymm (hm ▸ avg_le_maxAvg records codes c hc) (hpos c hc)
      rw [hc0]
      norm_num
    · rw [if_neg hm]
      have ham : avgInterest records c ≤ maxAvgInterest records codes :=
        avg_le_maxAvg records codes c hc
      have hm0 : 0 ≤ maxAvgInterest records codes := le_trans (hpos c hc) ham
      have hmpos : 0 < maxAvgInterest records codes := lt_of_le_of_ne hm0 (Ne.symm hm)
      exact ⟨div_nonneg (hpos c hc) hm0, (div_le_one hmpos).mpr ham⟩
  have hns : 0 ≤ (sentimentScoreOf sentiment c + 1) / 2 ∧
      (sentimentScoreOf sentiment c + 1) / 2 ≤ 1 := by
    constructor <;> linarith [hs.1, hs.2]
  constructor
  · have hlow : ((0 : ℤ) : ℚ) ≤ (7 / 10 : ℚ) *
        (avgInterest records c /
          (if maxAvgInterest records codes = 0 then 1 else maxAvgInterest records codes)) +
        (3 / 10 : ℚ) * ((sentimentScoreOf sentiment c + 1) / 2) := by
      push_cast
      nlinarith [hni.1, hni.2, hns.1, hns.2]
    have := le_roundTo (d := 3) hlow
    push_cast at this
    linarith
  · have hup : (7 / 10 : ℚ) *
        (avgInterest records c /
          (if maxAvgInterest records codes = 0 then 1 else maxAvgInterest records codes)) +
        (3 / 10 : ℚ) * ((sentimentScoreOf sentiment c + 1) / 2) ≤ ((1 : ℤ) : ℚ) := by
      push_cast
      nlinarith [hni.1, hni.2, hns.1, hns.2]
    have := roundTo_le (d := 3) hup
    push_cast at this
    linarith

/-- C8: combined weekly scores follow
`round(0.7 * avg/max_avg + 0.3 * (sentiment+1)/2, 3)`; they lie in `[0, 1]`
for valid inputs; and on the 80/40 interest with -1.0/0.5 sentiment example
the scores are 0.70 and 0.575 and the overall winner is A. -/
theorem combined_score_formula_bounds_example (iot : IotData)
    (sentiment : List (String × ℚ)) (entities : List (String × String))
    (hne : entities ≠ [])
    (hpos : ∀ c ∈ entities.map Prod.fst, 0 ≤ avgInterest iot.data c)
    (hs : ∀ c ∈ entities.map Prod.fst,
      -1 ≤ sentimentScoreOf sentiment c ∧ sentimentScoreOf sentiment c ≤ 1) :
    (determine_winner iot sentiment entities).map Weekly.combined_scores =
      some ((entities.map Prod.fst).map (fun c => (c,
        roundTo 3 ((7 / 10 : ℚ) *
            (avgInterest iot.data c / maxAvgInterest iot.data (entities.map Prod.fst)) +
          (3 / 10 : ℚ) * ((sentimentScoreOf sentiment c + 1) / 2)))))
    ∧ (∀ c ∈ entities.map Prod.fst,
        0 ≤ combinedOf iot.data sentiment (entities.map Prod.fst) c ∧
        combinedOf iot.data sentiment (entities.map Prod.fst) c ≤ 1)
    ∧ (determine_winner exIotAB exSentAB exEntitiesAB).map
        (fun w => (w.combined_scores, w.overall_winner)) =
      some ([("A", 7 / 10), ("B", 23 / 40)], "A") := by
  have hBA : ("B" : String) ≠ "A" := by decide
  have hAB : ("A" : String) ≠ "B" := by decide
  have havgA : avgInterest exRecsAB "A" = 80 := by
    norm_num [avgInterest, exRecsAB, recGet, dGet, alookup, hBA, hAB]
  have havgB : avgInterest exRecsAB "B" = 40 := by
    norm_num [avgInterest, exRecsAB, recGet, dGet, alookup, hBA, hAB]
  have hsentA : sentimentScoreOf exSentAB "A" = -1 := by
    norm_num [sentimentScoreOf, exSentAB, alookup, hBA, hAB]
  have hsentB : sentimentScoreOf exSentAB "B" = 1 / 2 := by
    norm_num [sentimentScoreOf, exSentAB, alookup, hBA, hAB]
  have hmax : maxAvgInterest exRecsAB ["A", "B"] = 80 := by
    simp only [maxAvgInterest, List.map_cons, List.map_nil, List.foldl_cons,
      List.foldl_nil, havgA, havgB]
    norm_num
  have hcombA : combinedOf exRecsAB exSentAB ["A", "B"] "A" = 7 / 10 := by
    simp only [combinedOf, hmax, havgA, hsentA]
    rw [if_neg (by norm_num)]
    rw [roundTo_eq_of_eq_intCast (m := 700) (by norm_num)]
    norm_num
  have hcombB : combinedOf exRecsAB exSentAB ["A", "B"] "B" = 23 / 40 := by
    simp only [combinedOf, hmax, havgB, hsentB]
    rw [if_neg (by norm_num)]
    rw [roundTo_eq_of_eq_intCast (m := 575) (by norm_num)]
    norm_num
  refine ⟨?_, ?_, ?_⟩
  · cases entities with
    | nil => exact absurd rfl hne
    | cons e es =>
      have hpos' : ∀ x ∈ e.1 :: es.map Prod.fst, 0 ≤ avgInterest iot.data x := by
        simpa using hpos
      simp only [determine_winner, List.map_cons, Option.map_some', Option.some.injEq]
      have hhead : combinedOf iot.data sentiment (e.1 :: es.map Prod.fst) e.1 =
          roundTo 3 ((7 / 10 : ℚ) *
              (avgInterest iot.data e.1 /
                maxAvgInterest iot.data (e.1 :: es.map Prod.fst)) +
            (3 / 10 : ℚ) * ((sentimentScoreOf sentiment e.1 + 1) / 2)) :=
        combinedOf_eq_spec _ _ _ _ (List.mem_cons_self _ _) hpos'
      have htail : (es.map Prod.fst).map (fun c =>
            (c, combinedOf iot.data sentiment (e.1 :: es.map Prod.fst) c)) =
          (es.map Prod.fst).map (fun c => (c,
            roundTo 3 ((7 / 10 : ℚ) *
                (avgInterest iot.data c /
                  maxAvgInterest iot.data (e.1 :: es.map Prod.fst)) +
              (3 / 10 : ℚ) * ((sentimentScoreOf sentiment c + 1) / 2)))) :=
        List.map_congr_left (fun c hc => by
          rw [combinedOf_eq_spec _ _ _ _ (List.mem_cons_of_mem _ hc) hpos'])
      rw [hhead, htail]
  · intro c hc
    exact combinedOf_mem_unit iot.data sentiment _ c hc hpos (hs c hc)
  · simp only [determine_winner, exEntitiesAB, exIotAB, List.map_cons, List.map_nil,
      Option.map_some', pyArgmax, List.foldl_cons, List.foldl_nil]
    simp only [hcombA, hcombB]
    rw [if_neg (by norm_num)]

theorem detectAt_eq_specAt (dates : List String) (code name : String) (values : List ℤ)
    (i : ℕ) (h7 : 7 ≤ i) (hi : i < values.length) :
    detectAt dates code name values i = specAt dates code name values i := by
  have hwlen : ((values.drop (i - 7)).take 7).length = 7 := by
    simp only [List.length_take, List.length_drop]
    omega
  have hnil : (values.drop (i - 7)).take 7 ≠ [] := by
    intro hnil
    rw [hnil] at hwlen
    simp at hwlen
  have hne : ((values.drop (i - 7)).take 7).isEmpty = false := by
    simpa [List.isEmpty_iff] using hnil
  simp only [detectAt, specAt, ROLLING_WINDOW, MIN_ABSOLUTE, SPIKE_THRESHOLD, hne,
    Bool.false_eq_true, if_false, hwlen, Nat.cast_ofNat]
  split_ifs <;> first | rfl | tauto

/-- C2: `detect_spikes` computes exactly the reference rule of spec §4.2:
flag index `i` iff the mean of the 7 previous values is positive, the value
is at least 10 and at least twice that mean; store ratio and rolling
average rounded to 1 decimal; sort descending by ratio; keep at most 10;
series shorter than 8 records give no spikes. -/
theorem detect_spikes_matches_spec (iot : IotData) (entities : List (String × String)) :
    detect_spikes iot entities = spikeSpec iot entities := by
  simp only [detect_spikes, spikeSpec, ROLLING_WINDOW]
  by_cases hlen : iot.data.length < 7 + 1
  · rw [if_pos hlen, if_pos (by omega : iot.data.length < 8)]
  · rw [if_neg hlen, if_neg (by omega : ¬iot.data.length < 8)]
    have hfun : (fun code : String =>
        (List.range' 7 ((iot.data.map (fun r => recGet r code)).length - 7)).filterMap
          (detectAt (iot.data.map DRec.date) code ((alookup entities code).getD "")
            (iot.data.map (fun r => recGet r code)))) =
        (fun code : String =>
        (List.range' 7 ((iot.data.map (fun r => recGet r code)).length - 7)).filterMap
          (specAt (iot.data.map DRec.date) code ((alookup entities code).getD "")
            (iot.data.map (fun r => recGet r code)))) := by
      funext code
      apply List.filterMap_congr
      intro i hi
      rw [List.mem_range'_1] at hi
      have hmaplen : (iot.data.map (fun r => recGet r code)).length = iot.data.length :=
        List.length_map _ _
      apply detectAt_eq_specAt
      · exact hi.1
      · omega
    rw [hfun]

theorem parseDate_empty : parseDate "" = none := rfl

theorem matchedArticles_eq_qualifying (nd : List (String × List Article)) (s : Spike)
    (sd : ℕ) (h : parseDate s.date = some sd) :
    matchedArticles ((alookup nd s.party_code).getD []) sd = qualifying nd s := by
  unfold matchedArticles qualifying
  apply List.filterMap_congr
  intro a _
  cases hd : a.date with
  | none => rfl
  | some ds =>
    dsimp only
    by_cases hds : ds = ""
    · subst hds
      rw [if_pos rfl, parseDate_empty]
    · rw [if_neg hds]
      cases hp : parseDate ds with
      | none => rfl
      | some ad =>
        dsimp only
        rw [h]
        rfl

/-- C4: with parseable spike dates, `match_news_to_spikes` never errors and
computes exactly the spec rule: an article is retained iff it has a
parseable date within 2 days of the spike date; the first 3 retained
articles are kept in feed order; the explanation is the first retained
title or the generic fallback (in particular for an absent or empty news
list); missing or unparseable article dates are skipped, never an error. -/
theorem news_matching_matches_spec (spikes : List Spike)
    (nd : List (String × List Article))
    (h : ∀ s ∈ spikes, (parseDate s.date).isSome) :
    match_news_to_spikes spikes nd = .ok (spikes.map (newsSpec nd)) := by
  induction spikes with
  | nil => rfl
  | cons s rest ih =>
    have hs := h s (List.mem_cons_self _ _)
    obtain ⟨sd, hsd⟩ := Option.isSome_iff_exists.mp hs
    have hrest := ih (fun t ht => h t (List.mem_cons_of_mem _ ht))
    simp only [match_news_to_spikes, hsd, hrest, List.map_cons]
    have hps : processSpike nd s sd = newsSpec nd s := by
      unfold processSpike newsSpec
      rw [matchedArticles_eq_qualifying nd s sd hsd]
    rw [hps]

/-- C1: behaviour of the multi-batch fetch under empty batch responses.
When the baseline batch response is empty but a later batch has data, the
run raises `AttributeError` (`anchor_values_first` is still `None` when
`anchor_values_first.get` is evaluated) instead of zero-filling that batch;
when a later batch response is empty, the run completes and that batch's
entities read 0 in the merged records. -/
theorem fetch_empty_batch_behaviour :
    fetch_interest_over_time "today 3-m" "AU" exCodes7 [[], exDf2] =
      .error "AttributeError: NoneType object has no attribute get"
    ∧ fetch_interest_over_time "today 3-m" "AU" exCodes7 [exDf1, []] =
      .ok (some ⟨"today 3-m", "AU",
        [⟨"2025-06-01",
          [("p1", 50), ("p2", 30), ("p3", 20), ("p4", 10), ("p5", 5),
           ("p6", 0), ("p7", 0)]⟩]⟩) := by
  constructor
  · rfl
  · rfl

theorem normValue_spec (af ab : List (String × ℤ)) (d : String) (raw : ℤ) :
    normValue af ab d raw =
      if 0 < dGet af d ∧ 0 < dGet ab d then
        pyRoundInt ((raw : ℚ) * ((dGet af d : ℚ) / (dGet ab d : ℚ)))
      else raw := by
  simp only [normValue]
  rw [if_congr and_comm rfl rfl]

/-- C3: for a later batch over a stored baseline, every non-anchor entity's
stored value at date `d` is `round(v * A1[d] / Ab[d])` when both anchor
readings are positive and the raw `v` otherwise; and end to end, with
anchor 50 in batch 1 and 25 in batch 2 on a date, raw 10 for entity p6
becomes 20 in the merged output. -/
theorem batch_rescaling_formula :
    (∀ (st : FetchState) (i : ℕ) (batch : List String) (df : List DfRow)
        (anchor : String) (af : List (String × ℤ)),
        st.anchor_first = some af → i ≠ 0 → df.isEmpty = false →
        processBatch anchor i batch df st = .ok
          { all_dfs := st.all_dfs ++ (batch.filter (fun c => c != anchor)).map (fun c =>
              (c, df.map (fun row => (row.date,
                if 0 < dGet af row.date ∧ 0 < dGet (colOf df anchor) row.date then
                  pyRoundInt ((rowGet row c : ℚ) *
                    ((dGet af row.date : ℚ) / (dGet (colOf df anchor) row.date : ℚ)))
                else rowGet row c)))),
            anchor_first := st.anchor_first })
    ∧ fetch_interest_over_time "today 3-m" "AU" exCodes7 [exDf1, exDf2] =
      .ok (some ⟨"today 3-m", "AU",
        [⟨"2025-06-01",
          [("p1", 50), ("p2", 30), ("p3", 20), ("p4", 10), ("p5", 5),
           ("p6", 20), ("p7", 10)]⟩]⟩) := by
  constructor
  · intro st i batch df anchor af haf hi0 hdf
    simp only [processBatch, hdf, Bool.false_eq_true, if_false, if_neg hi0, haf,
      normValue_spec]
  · have h20 : pyRoundInt (20 : ℚ) = 20 := by
      rw [(by norm_num : (20 : ℚ) = ((20 : ℤ) : ℚ)), pyRoundInt_intCast]
    have h10 : pyRoundInt (10 : ℚ) = 10 := by
      rw [(by norm_num : (10 : ℚ) = ((10 : ℤ) : ℚ)), pyRoundInt_intCast]
    simp +decide [fetch_interest_over_time, batch_entities, chunksOf, chunksOfAux,
      exCodes7, exDf1, exDf2, processBatches, processBatch, colOf, rowGet,
      alookup, dGet, normValue, dictKeysSorted, sortAsc, insertAsc,
      MAX_ENTITIES_PER_REQUEST]
    norm_num [h20, h10]

/-! ## Witnesses: the hypotheses of the claim theorems hold on concrete runs -/

theorem sentiment_score_formula_bounds_witness :
    (analyseEntity "ALP" []).queries_analysed = 0 ∧
      (analyseEntity "ALP" []).sentiment_score = 0 :=
  ⟨by decide, (sentiment_score_formula_bounds "ALP" []).2.2.2 (by decide)⟩

theorem momentum_formula_witness :
    exEntitiesAB ≠ []
    ∧ ((determine_winner exIotAB exSentAB exEntitiesAB).map Weekly.momentum_pct =
        some ((exEntitiesAB.map Prod.fst).map (fun c => (c,
          if 0 < prevAvg exIotAB.data c then
            roundTo 1 (100 * (avgInterest exIotAB.data c - prevAvg exIotAB.data c) /
              prevAvg exIotAB.data c)
          else 0)))
      ∧ (exIotAB.data.length < 14 →
          (determine_winner exIotAB exSentAB exEntitiesAB).map Weekly.momentum_pct =
            some ((exEntitiesAB.map Prod.fst).map (fun c => (c, (0 : ℚ)))))) :=
  ⟨by decide, momentum_formula exIotAB exSentAB exEntitiesAB (by decide)⟩

theorem combined_score_formula_bounds_example_witness :
    (exEntitiesAB ≠ []
      ∧ (∀ c ∈ exEntitiesAB.map Prod.fst, 0 ≤ avgInterest exIotEmpty.data c)
      ∧ (∀ c ∈ exEntitiesAB.map Prod.fst,
          -1 ≤ sentimentScoreOf [] c ∧ sentimentScoreOf [] c ≤ 1))
    ∧ ((determine_winner exIotEmpty [] exEntitiesAB).map Weekly.combined_scores =
        some ((exEntitiesAB.map Prod.fst).map (fun c => (c,
          roundTo 3 ((7 / 10 : ℚ) *
              (avgInterest exIotEmpty.data c /
                maxAvgInterest exIotEmpty.data (exEntitiesAB.map Prod.fst)) +
            (3 / 10 : ℚ) * ((sentimentScoreOf [] c + 1) / 2)))))
      ∧ (∀ c ∈ exEntitiesAB.map Prod.fst,
          0 ≤ combinedOf exIotEmpty.data [] (exEntitiesAB.map Prod.fst) c ∧
          combinedOf exIotEmpty.data [] (exEntitiesAB.map Prod.fst) c ≤ 1)
      ∧ (determine_winner exIotAB exSentAB exEntitiesAB).map
          (fun w => (w.combined_scores, w.overall_winner)) =
        some ([("A", 7 / 10), ("B", 23 / 40)], "A")) := by
  have hp : ∀ c ∈ exEntitiesAB.map Prod.fst, 0 ≤ avgInterest exIotEmpty.data c := by
    intro c _
    norm_num [avgInterest, exIotEmpty]
  have hsent : ∀ c ∈ exEntitiesAB.map Prod.fst,
      -1 ≤ sentimentScoreOf [] c ∧ sentimentScoreOf [] c ≤ 1 := by
    intro c _
    norm_num [sentimentScoreOf, alookup]
  exact ⟨⟨by decide, hp, hsent⟩,
    combined_score_formula_bounds_example exIotEmpty [] exEntitiesAB (by decide) hp hsent⟩

theorem entity_key_completeness_witness :
    (fetch_interest_over_time "t" "g" ["A", "B"] [[⟨"d", [("A", 1), ("B", 2)]⟩]] =
      .ok (some ⟨"t", "g", [⟨"d", [("A", 1), ("B", 2)]⟩]⟩))
    ∧ (∀ r ∈ (⟨"t", "g", [⟨"d", [("A", 1), ("B", 2)]⟩]⟩ : IotData).data,
        r.vals.map Prod.fst = ["A", "B"])
    ∧ ((run_sentiment_analysis exEntitiesAB []).map Prod.fst =
        exEntitiesAB.map Prod.fst)
    ∧ exEntitiesAB ≠ []
    ∧ ((determine_winner exIotAB exSentAB exEntitiesAB).map
          (fun w => w.avg_interest.map Prod.fst) = some (exEntitiesAB.map Prod.fst)
      ∧ (determine_winner exIotAB exSentAB exEntitiesAB).map
          (fun w => w.momentum_pct.map Prod.fst) = some (exEntitiesAB.map Prod.fst)
      ∧ (determine_winner exIotAB exSentAB exEntitiesAB).map
          (fun w => w.sentiment_scores.map Prod.fst) = some (exEntitiesAB.map Prod.fst)
      ∧ (determine_winner exIotAB exSentAB exEntitiesAB).map
          (fun w => w.combined_scores.map Prod.fst) = some (exEntitiesAB.map Prod.fst)) :=
  ⟨rfl,
    entity_key_completeness.1 "t" "g" ["A", "B"] [[⟨"d", [("A", 1), ("B", 2)]⟩]]
      ⟨"t", "g", [⟨"d", [("A", 1), ("B", 2)]⟩]⟩ rfl,
    entity_key_completeness.2.1 exEntitiesAB [],
    by decide,
    entity_key_completeness.2.2 exIotAB exSentAB exEntitiesAB (by decide)⟩

theorem batch_rescaling_formula_witness :
    ((⟨[], some [("d", 50)]⟩ : FetchState).anchor_first = some [("d", 50)])
    ∧ (1 : ℕ) ≠ 0
    ∧ (([⟨"d", [("a", 25), ("e", 10)]⟩] : List DfRow).isEmpty = false)
    ∧ processBatch "a" 1 ["a", "e"] [⟨"d", [("a", 25), ("e", 10)]⟩]
        ⟨[], some [("d", 50)]⟩ = .ok
      { all_dfs := (⟨[], some [("d", 50)]⟩ : FetchState).all_dfs ++
          ((["a", "e"].filter (fun c => c != "a")).map (fun c =>
            (c, ([⟨"d", [("a", 25), ("e", 10)]⟩] : List DfRow).map (fun row => (row.date,
              if 0 < dGet [("d", 50)] row.date ∧
                  0 < dGet (colOf [⟨"d", [("a", 25), ("e", 10)]⟩] "a") row.date then
                pyRoundInt ((rowGet row c : ℚ) *
                  ((dGet [("d", 50)] row.date : ℚ) /
                    (dGet (colOf [⟨"d", [("a", 25), ("e", 10)]⟩] "a") row.date : ℚ)))
              else rowGet row c))))),
        anchor_first := (⟨[], some [("d", 50)]⟩ : FetchState).anchor_first } :=
  ⟨rfl, by decide, rfl,
    batch_rescaling_formula.1 ⟨[], some [("d", 50)]⟩ 1 ["a", "e"]
      [⟨"d", [("a", 25), ("e", 10)]⟩] "a" [("d", 50)] rfl (by decide) rfl⟩

theorem news_matching_matches_spec_witness :
    (∀ s ∈ exSpikes, (parseDate s.date).isSome)
    ∧ match_news_to_spikes exSpikes exNews = .ok (exSpikes.map (newsSpec exNews)) :=
  ⟨by decide, news_matching_matches_spec exSpikes exNews (by decide)⟩

end Poltrends
